import Mathlib

/-!
Verification of the real-time session and message-normalization layer of the
lobbying-investigation frontend: the markdown table parsing engine
(`table-parser.ts`), the WebSocket transport (`websocket-service.ts`) and the
session orchestrator (`realtime-service.ts`).

The embedding works on `List Char` for all text processing, mirroring the
JavaScript string primitives used by the source (`split`, `trim`,
`toLowerCase`, `includes`, the few fixed regular expressions), so that every
definition is executable and decidable on concrete inputs.
-/

/-- Character list of a string literal. -/
def chars (s : String) : List Char := s.data

/-- JavaScript whitespace class `\s` restricted to the ASCII characters that
can occur in this protocol (space, tab, newline, carriage return, vertical
tab, form feed). -/
def isWs (c : Char) : Bool :=
  c == ' ' || c == '\t' || c == '\n' || c == '\r' || c == '\x0b' || c == '\x0c'

/-- JavaScript `String.prototype.trim`. -/
def jsTrim (l : List Char) : List Char :=
  ((l.dropWhile isWs).reverse.dropWhile isWs).reverse

/-- JavaScript `String.prototype.toLowerCase` (ASCII; the source only compares
ASCII keywords). -/
def lowerC (l : List Char) : List Char := l.map Char.toLower

/-- JavaScript `String.prototype.split` with a one-character separator. -/
def jsSplit (sep : Char) : List Char → List (List Char)
  | [] => [[]]
  | c :: cs =>
    match jsSplit sep cs with
    | [] => [[]]
    | h :: t => if c == sep then [] :: h :: t else (c :: h) :: t

/-- JavaScript `Array.prototype.join` with a one-character separator. -/
def jsJoin (sep : Char) : List (List Char) → List Char
  | [] => []
  | [l] => l
  | l :: l' :: ls => l ++ sep :: jsJoin sep (l' :: ls)

/-- Does `needle` occur at the start of `hay`? -/
def hasPrefixC : List Char → List Char → Bool
  | [], _ => true
  | _ :: _, [] => false
  | n :: ns, h :: hs => n == h && hasPrefixC ns hs

/-- JavaScript `String.prototype.includes`. -/
def containsSub : List Char → List Char → Bool
  | n, [] => n.isEmpty
  | n, c :: cs => hasPrefixC n (c :: cs) || containsSub n cs

/-- Value of a digit run, as computed by `parseInt(_, 10)`. -/
def digitsToNat (ds : List Char) : Nat :=
  ds.foldl (fun n c => n * 10 + (c.toNat - 48)) 0

/-- `TableParser.parseRank`: the regex `/(\d+)/` finds the first run of
digits; `parseInt` of a digit run can never be `NaN`, so the result is `none`
exactly when the cell has no digit. -/
def parseRank (cell : List Char) : Option Int :=
  match cell.dropWhile (fun c => !c.isDigit) with
  | [] => none
  | ds => some (Int.ofNat (digitsToNat (ds.takeWhile Char.isDigit)))

/-- Is `c` one of the party codes recognized by the name regexes (`[RDI]`)? -/
def rdiChar (c : Char) : Bool := c == 'R' || c == 'D' || c == 'I'

/-- Tail test for the regex `^(.+?)\s*\(([RDI])\)$`: after the lazily matched
name, the remaining characters must be optional whitespace followed by exactly
`(X)` with `X ∈ {R,D,I}`. -/
def rdiEnd (s : List Char) : Option Char :=
  match s.dropWhile isWs with
  | ['(', x, ')'] => if rdiChar x then some x else none
  | _ => none

/-- Tail test for the dash-variant regex `^(.+?)\s*\(([RDI])` followed by a
literal dash: optional whitespace then `(X-` with `X ∈ {R,D,I}` (the rest of
the cell is unconstrained). -/
def rdiDash (s : List Char) : Option Char :=
  match s.dropWhile isWs with
  | '(' :: x :: '-' :: _ => if rdiChar x then some x else none
  | _ => none

/-- Lazy-group regex matching `^(.+?)<tail>`: scan split points left to right
(shortest nonempty captured group first, as a lazy quantifier does); `.` does
not match line terminators. -/
def lazySplit (check : List Char → Option Char) : List Char → List Char → Option (List Char × Char)
  | _, [] => none
  | pre, c :: rest =>
    if c == '\n' || c == '\r' then none
    else
      match check rest with
      | some x => some (pre ++ [c], x)
      | none => lazySplit check (pre ++ [c]) rest

/-- `TableParser.parseNameForParty`: try `^(.+?)\s*\(([RDI])\)$`, then the
dash variant `^(.+?)\s*\(([RDI])` followed by a dash, else no party. The
returned name is trimmed. -/
def parseNameForParty (nameCell : List Char) : List Char × Option Char :=
  match lazySplit rdiEnd [] nameCell with
  | some (n, p) => (jsTrim n, some p)
  | none =>
    match lazySplit rdiDash [] nameCell with
    | some (n, p) => (jsTrim n, some p)
    | none => (jsTrim nameCell, none)

/-- `A`–`Z` test used by the state regexes. -/
def isUpperAZ (c : Char) : Bool := 'A' ≤ c && c ≤ 'Z'

/-- `TableParser.parseStateDistrict`: `^([A-Z]{2})-(\d+)$`, else
`^([A-Z]{2})$`, else the cell passes through verbatim as the state. -/
def parseStateDistrict (cell : List Char) : List Char × Option (List Char) :=
  match cell with
  | [a, b] => if isUpperAZ a && isUpperAZ b then ([a, b], none) else (cell, none)
  | a :: b :: '-' :: ds =>
    if isUpperAZ a && isUpperAZ b && !ds.isEmpty && ds.all Char.isDigit then
      ([a, b], some ds)
    else (cell, none)
  | _ => (cell, none)

/-- `TableParser.expandParty`. -/
def expandParty (p : Char) : List Char :=
  if p == 'R' then chars "Republican"
  else if p == 'D' then chars "Democrat"
  else if p == 'I' then chars "Independent"
  else [p]

/-- One row of the parsed congressional table (`CongressMember` in
`table-parser.ts`). `rank` is an `Int` because it is a JavaScript number
produced by `parseInt`. -/
structure CongressMember where
  name : String
  chamber : String
  party : Option String
  state : String
  district : Option String
  rank : Int
  reason : String
deriving Repr, DecidableEq, Inhabited

/-- Cells of a table row: split on `|`, trim each cell, drop empty cells. -/
def cellsOf (row : List Char) : List (List Char) :=
  ((jsSplit '|' row).map jsTrim).filter (fun c => !c.isEmpty)

/-- `TableParser.parseTableRow`: at least 5 cells mapped positionally to
name, chamber, state/district, rank, reason; a row whose rank cell has no
parseable integer is rejected. -/
def parseTableRow (row : List Char) : Option CongressMember :=
  match cellsOf row with
  | c0 :: c1 :: c2 :: c3 :: c4 :: _ =>
    match parseRank c3 with
    | none => none
    | some rank =>
      let ni := parseNameForParty c0
      let si := parseStateDistrict (jsTrim c2)
      some {
        name := String.mk ni.1
        chamber := String.mk (jsTrim c1)
        party := ni.2.map (fun p => String.mk (expandParty p))
        state := String.mk si.1
        district := si.2.map String.mk
        rank := rank
        reason := String.mk (jsTrim c4) }
  | _ => none

/-- The separator-row regex `/^\|[\s\-|]+\|$/`: a leading `|`, one or more
characters from `[\s\-|]`, a trailing `|`. -/
def sepClass (c : Char) : Bool := isWs c || c == '-' || c == '|'

/-- Matches everything after the leading `|` up to (not including) a final
`|`, requiring at least one class character before the final bar. -/
def sepTailAfter : List Char → Bool
  | [] => false
  | ['|'] => true
  | c :: rest => sepClass c && sepTailAfter rest

/-- Tail of the separator regex: at least one `[\s\-|]` character followed by
the final `|`. -/
def sepTailMatch : List Char → Bool
  | [] => false
  | [_] => false
  | c :: rest => sepClass c && sepTailAfter rest

/-- Full separator-row regex `/^\|[\s\-|]+\|$/`. -/
def sepLineMatch (t : List Char) : Bool :=
  match t with
  | [] => false
  | c :: rest => c == '|' && sepTailMatch rest

/-- `TableParser.parseTableRows`' treatment of one line of a table section:
skip blank lines, the header line (contains `Congress Member`) and separator
rows; parse everything else as a data row. -/
def rowStep (line : List Char) : Option CongressMember :=
  let t := jsTrim line
  if t.isEmpty || containsSub (chars "Congress Member") t || sepLineMatch t then none
  else parseTableRow t

/-- `TableParser.parseTableRows` at the line-list level. -/
def parseRowsLines (ls : List (List Char)) : List CongressMember :=
  ls.filterMap rowStep

/-- `TableParser.parseTableRows`. -/
def parseTableRows (sectionText : List Char) : List CongressMember :=
  parseRowsLines (jsSplit '\n' sectionText)

/-- A qualifying markdown table header line (`detectDualTables` /
`extractTableByOrder`): contains a pipe, and case-insensitively
`congress member`, `involvement rank`, and `chamber` or `party`. -/
def headerMatch (line : List Char) : Bool :=
  containsSub (chars "|") line &&
    (let ll := jsTrim (lowerC line)
     containsSub (chars "congress member") ll &&
       (containsSub (chars "chamber") ll || containsSub (chars "party") ll) &&
       containsSub (chars "involvement rank") ll)

/-- Number of qualifying table header lines in the text. -/
def headerCount (content : List Char) : Nat :=
  ((jsSplit '\n' content).filter headerMatch).length

/-- `TableParser.detectDualTables`: exactly two qualifying header lines. -/
def detectDualTables (content : List Char) : Bool :=
  headerCount content == 2

/-- The `extractTableByOrder` check
`line.trim().replace(/\|/g, '').replace(/[-:]/g, '').trim() === ''`. -/
def isSeparatorish (line : List Char) : Bool :=
  (jsTrim ((jsTrim line).filter (fun c => !(c == '|' || c == '-' || c == ':')))).isEmpty

/-- The line-scanning state machine of `TableParser.extractTableByOrder`;
arguments are the remaining lines, the flushed tables (each already joined
with newlines), the lines of the table currently being buffered, and the
`inTable` flag. -/
def extractTablesLoop : List (List Char) → List (List Char) → List (List Char) → Bool → List (List Char)
  | [], tf, cur, inT => if inT && !cur.isEmpty then tf ++ [jsJoin '\n' cur] else tf
  | line :: rest, tf, cur, inT =>
    if headerMatch line then
      let tf' := if inT && !cur.isEmpty then tf ++ [jsJoin '\n' cur] else tf
      extractTablesLoop rest tf' [line] true
    else if inT then
      if containsSub (chars "|") line && (isSeparatorish line || 5 ≤ (jsSplit '|' line).length) then
        extractTablesLoop rest tf (cur ++ [line]) true
      else if (jsTrim line).isEmpty && 2 < cur.length then
        extractTablesLoop rest (tf ++ [jsJoin '\n' cur]) [] false
      else if !containsSub (chars "|") line && 2 < cur.length then
        extractTablesLoop rest (tf ++ [jsJoin '\n' cur]) [] false
      else
        extractTablesLoop rest tf cur true
    else
      extractTablesLoop rest tf cur false

/-- `TableParser.extractTableByOrder` (1-indexed). -/
def extractTableByOrder (content : List Char) (tableNumber : Nat) : Option (List Char) :=
  (extractTablesLoop (jsSplit '\n' content) [] [] false)[tableNumber - 1]?

/-- The table indicators of `TableParser.detectTableInMessage`. -/
def tableIndicators : List (List Char) :=
  [chars "Congress Member", chars "Chamber", chars "State/District",
   chars "Involvement Rank", chars "Reason", chars "|---|", chars "TERMINATE",
   chars "investigation complete", chars "table delivered"]

/-- `TableParser.detectTableInMessage`: at least 3 indicators present
case-insensitively. -/
def detectTableInMessage (content : List Char) : Bool :=
  let cl := lowerC content
  decide (3 ≤ (tableIndicators.filter (fun ind => containsSub (lowerC ind) cl)).length)

/-- End-of-table test of `TableParser.extractTableSection` (applied to the
trimmed line). -/
def sectionEndCond (t : List Char) : Bool :=
  t.isEmpty || (containsSub (chars "---") t && !containsSub (chars "|") t) ||
    containsSub (chars "interpretive notes") (lowerC t) ||
    containsSub (chars "conclusion") (lowerC t)

/-- The scanning loop of `TableParser.extractTableSection`: returns the last
header index seen (`tableStart`) and the index at which the loop broke
(`tableEnd`), `none` meaning it ran to the end of the lines. -/
def sectionScan : List (List Char) → Nat → Option Nat → Option Nat × Option Nat
  | [], _, ts => (ts, none)
  | l :: rest, i, ts =>
    let t := jsTrim l
    let ts' := if containsSub (chars "Congress Member") t && containsSub (chars "|") t then some i else ts
    if ts'.isSome && sepLineMatch t then sectionScan rest (i + 1) ts'
    else
      match ts' with
      | some s => if s + 1 < i && sectionEndCond t then (some s, some i) else sectionScan rest (i + 1) (some s)
      | none => sectionScan rest (i + 1) none

/-- `TableParser.extractTableSection`. -/
def extractTableSection (content : List Char) : Option (List Char) :=
  let lines := jsSplit '\n' content
  match sectionScan lines 0 none with
  | (none, _) => none
  | (some s, e?) =>
    let e := e?.getD lines.length
    some (jsJoin '\n' ((lines.drop s).take (e - s)))

/-- One attempt of the bill-id regex `/([SH]\.?\s*\d+[-\s]\d+)/i` anchored at
the current position. -/
def billAt (s : List Char) : Option (List Char) :=
  match s with
  | [] => none
  | c :: rest =>
    if c == 'S' || c == 's' || c == 'H' || c == 'h' then
      let dotPart : List Char := match rest with | '.' :: _ => ['.'] | _ => []
      let r1 := match rest with | '.' :: r => r | _ => rest
      let wsPart := r1.takeWhile isWs
      let r2 := r1.dropWhile isWs
      let d1 := r2.takeWhile Char.isDigit
      let r3 := r2.dropWhile Char.isDigit
      if d1.isEmpty then none
      else
        match r3 with
        | [] => none
        | sep :: r4 =>
          if sep == '-' || isWs sep then
            let d2 := r4.takeWhile Char.isDigit
            if d2.isEmpty then none else some ([c] ++ dotPart ++ wsPart ++ d1 ++ [sep] ++ d2)
          else none
    else none

/-- Leftmost match of the bill-id regex. -/
def findBillId : List Char → Option (List Char)
  | [] => none
  | c :: rest =>
    match billAt (c :: rest) with
    | some m => some m
    | none => findBillId rest

/-- `TableParser.extractBillId`. -/
def extractBillId (content : List Char) : Option String :=
  (findBillId content).map String.mk

/-- The completion indicators of `TableParser.isInvestigationComplete`. -/
def completionIndicators : List (List Char) :=
  [chars "TERMINATE", chars "investigation complete", chars "table delivered",
   chars "all findings consolidated", chars "no further puzzle pieces"]

/-- `TableParser.isInvestigationComplete`. -/
def isInvestigationComplete (content : List Char) : Bool :=
  let cl := lowerC content
  completionIndicators.any (fun ind => containsSub (lowerC ind) cl)

/-- `ParsedTable` of `table-parser.ts`. -/
structure ParsedTable where
  members : List CongressMember
  totalMembers : Nat
  investigationComplete : Bool
  billId : Option String
  hasDualTables : Option Bool
  alignedMembers : Option (List CongressMember)
  opposedMembers : Option (List CongressMember)
deriving Repr, DecidableEq, Inhabited

/-- Rows of the first extracted table (`parseDualTables`' aligned members). -/
def alignedRowsOf (content : List Char) : List CongressMember :=
  match extractTableByOrder content 1 with
  | some s => parseTableRows s
  | none => []

/-- Rows of the second extracted table (`parseDualTables`' opposed members). -/
def opposedRowsOf (content : List Char) : List CongressMember :=
  match extractTableByOrder content 2 with
  | some s => parseTableRows s
  | none => []

/-- `TableParser.parseDualTables`. -/
def parseDualTables (content : List Char) : Option ParsedTable :=
  let aligned := alignedRowsOf content
  let opposed := opposedRowsOf content
  let allMembers := aligned ++ opposed
  if allMembers.isEmpty then none
  else
    some {
      members := allMembers
      totalMembers := allMembers.length
      investigationComplete := isInvestigationComplete content
      billId := extractBillId content
      hasDualTables := some true
      alignedMembers := some aligned
      opposedMembers := some opposed }

/-- `TableParser.parseSingleTable`. -/
def parseSingleTable (content : List Char) : Option ParsedTable :=
  if !detectTableInMessage content then none
  else
    match extractTableSection content with
    | none => none
    | some sec =>
      let members := parseTableRows sec
      if members.isEmpty then none
      else
        some {
          members := members
          totalMembers := members.length
          investigationComplete := isInvestigationComplete content
          billId := extractBillId content
          hasDualTables := some false
          alignedMembers := none
          opposedMembers := none }

/-- `TableParser.parseOrchestratorTable`: dual-table mode when exactly two
qualifying headers are present, single-table mode otherwise. The `try/catch`
of the source is vacuous here: every helper is a total function. -/
def parseOrchestratorTable (content : List Char) : Option ParsedTable :=
  if detectDualTables content then parseDualTables content else parseSingleTable content

/-- The exported `parseCongressTable` helper. -/
def parseCongressTable (s : String) : Option ParsedTable :=
  parseOrchestratorTable s.data

/-! ### JSON values and `JSON.stringify`

The wire payloads are JSON; the orchestrator embeds `JSON.stringify` output in
several generated communications. -/

/-- JSON values (the orchestrator never serializes `undefined` inside
containers, so this fragment suffices). -/
inductive Json where
  | null
  | bool (b : Bool)
  | num (n : Int)
  | str (s : String)
  | arr (xs : List Json)
  | obj (fields : List (String × Json))
deriving Repr, Inhabited

/-- JSON string escaping for the characters that can occur in this protocol. -/
def escChar (c : Char) : List Char :=
  if c == '"' then ['\\', '"']
  else if c == '\\' then ['\\', '\\']
  else if c == '\n' then ['\\', 'n']
  else if c == '\r' then ['\\', 'r']
  else if c == '\t' then ['\\', 't']
  else [c]

/-- A JSON-quoted string. -/
def jsonQuote (s : String) : String :=
  String.mk ('"' :: s.data.foldr (fun c acc => escChar c ++ acc) ['"'])

/-- `n` spaces. -/
def spaces (n : Nat) : String := String.mk (List.replicate n ' ')

mutual

/-- `JSON.stringify(v, null, 2)` at nesting depth `d`. -/
def renderJson2 : Json → Nat → String
  | Json.null, _ => "null"
  | Json.bool b, _ => if b then "true" else "false"
  | Json.num n, _ => toString n
  | Json.str s, _ => jsonQuote s
  | Json.arr xs, d =>
    if xs.isEmpty then "[]"
    else "[\n" ++ renderItems2 xs (d + 1) ++ "\n" ++ spaces (d * 2) ++ "]"
  | Json.obj fs, d =>
    if fs.isEmpty then "\x7b\x7d"
    else "\x7b\n" ++ renderFields2 fs (d + 1) ++ "\n" ++ spaces (d * 2) ++ "\x7d"

/-- Indented array items, comma-newline separated. -/
def renderItems2 : List Json → Nat → String
  | [], _ => ""
  | [x], d => spaces (d * 2) ++ renderJson2 x d
  | x :: y :: rest, d =>
    spaces (d * 2) ++ renderJson2 x d ++ ",\n" ++ renderItems2 (y :: rest) d

/-- Indented object fields, comma-newline separated. -/
def renderFields2 : List (String × Json) → Nat → String
  | [], _ => ""
  | [(k, v)], d => spaces (d * 2) ++ jsonQuote k ++ ": " ++ renderJson2 v d
  | (k, v) :: y :: rest, d =>
    spaces (d * 2) ++ jsonQuote k ++ ": " ++ renderJson2 v d ++ ",\n" ++ renderFields2 (y :: rest) d

end

mutual

/-- Compact `JSON.stringify(v)`. -/
def renderJsonC : Json → String
  | Json.null => "null"
  | Json.bool b => if b then "true" else "false"
  | Json.num n => toString n
  | Json.str s => jsonQuote s
  | Json.arr xs => "[" ++ renderItemsC xs ++ "]"
  | Json.obj fs => "\x7b" ++ renderFieldsC fs ++ "\x7d"

/-- Compact array items. -/
def renderItemsC : List Json → String
  | [] => ""
  | [x] => renderJsonC x
  | x :: y :: rest => renderJsonC x ++ "," ++ renderItemsC (y :: rest)

/-- Compact object fields. -/
def renderFieldsC : List (String × Json) → String
  | [] => ""
  | [(k, v)] => jsonQuote k ++ ":" ++ renderJsonC v
  | (k, v) :: y :: rest => jsonQuote k ++ ":" ++ renderJsonC v ++ "," ++ renderFieldsC (y :: rest)

end

/-! ### Domain data model (`llm-processor.ts` / `websocket-service.ts`) -/

/-- `ToolCall` of `llm-processor.ts`. -/
structure ToolCall where
  id : String
  name : String
  arguments : Json
deriving Repr, Inhabited

/-- `ToolResult` of `llm-processor.ts`. -/
structure ToolResult where
  call_id : String
  content : Option Json
  is_error : Bool
deriving Repr, Inhabited

/-- `AgentCommunication` of `llm-processor.ts`. TypeScript enum-typed string
fields are plain strings here (the types are erased at runtime and the code
assigns them dynamically). -/
structure AgentCommunication where
  id : String
  timestamp : String
  agent : String
  type : String
  simplified : String
  fullContent : Option String
  toolCalls : Option (List ToolCall)
  results : Option (List ToolResult)
  status : String
  tableData : Option ParsedTable
deriving Repr, Inhabited

/-- The `details` object consumed by `handleToolCallResult`. -/
structure WsDetails where
  key_findings : Option (List String)
  data_points : Option Int
deriving Repr, Inhabited

/-- Typed view of the `data` payload of a wire message: the union of the
fields the orchestrator reads. `raw` carries the original JSON value of the
whole payload, used only where the source stringifies `message.data` itself. -/
structure WsData where
  id : Option String
  agent : Option String
  type : Option String
  simplified : Option String
  fullContent : Option String
  toolCalls : Option (List ToolCall)
  results : Option (List ToolResult)
  status : Option String
  name : Option String
  arguments : Option Json
  summary : Option String
  details : Option WsDetails
  success : Bool
  result : Option Json
  table_available : Bool
  table_data : Option Json
  conclusion_message : Option String
  table_status : Option String
  raw : Json
deriving Repr, Inhabited

/-- The wire-message envelope (`WebSocketMessage`). `type` and `timestamp`
are the required string fields; everything else is optional. -/
structure WireMessage where
  type : String
  sessionId : Option String
  timestamp : String
  data : Option WsData
  message : Option String
  error : Option String
deriving Repr, Inhabited

/-- JavaScript `a || b` for an optional string `a` (absent and empty strings
are falsy). -/
def jsOrStr (o : Option String) (dflt : String) : String :=
  match o with
  | some s => if s.isEmpty then dflt else s
  | none => dflt

/-- JavaScript `a || b` for a present string `a`. -/
def jsOrStrS (s : String) (dflt : String) : String :=
  if s.isEmpty then dflt else s

/-- Template interpolation of a possibly-undefined string
(`undefined` renders as the string `undefined`). -/
def jsShow (o : Option String) : String := o.getD "undefined"

/-- Template interpolation of `JSON.stringify(v, null, 2)` where `v` may be
`undefined` (then `stringify` returns `undefined`, which interpolates as the
string `undefined`). -/
def jsStringifyOpt2 (o : Option Json) : String :=
  match o with
  | some j => renderJson2 j 0
  | none => "undefined"

/-- `data.fullContent?.substring(0, 200)` interpolated into a template:
`undefined` when `fullContent` is absent. -/
def jsSubstr200 (o : Option String) : String :=
  match o with
  | some s => String.mk (s.data.take 200)
  | none => "undefined"

/-- `Array.prototype.join('\n')`. -/
def joinNL : List String → String
  | [] => ""
  | [s] => s
  | s :: s' :: rest => s ++ "\n" ++ joinNL (s' :: rest)

/-- `data.table_data.members?.length || 0` on a JSON payload. -/
def jsonMembersLen (o : Option Json) : Nat :=
  match o with
  | some (Json.obj fs) =>
    match fs.lookup "members" with
    | some (Json.arr xs) => xs.length
    | _ => 0
  | _ => 0

/-- Truthiness of an optional JSON value (`undefined`, `null`, `false`, `0`,
and the empty string are falsy). -/
def jsTruthyJ (o : Option Json) : Bool :=
  match o with
  | none => false
  | some Json.null => false
  | some (Json.bool b) => b
  | some (Json.num n) => n != 0
  | some (Json.str s) => !s.isEmpty
  | some (Json.arr _) => true
  | some (Json.obj _) => true

/-! ### Session orchestrator (`realtime-service.ts`) -/

/-- The session state owned by `RealTimeService`: active flag, current
session id, and whether a communication callback is registered. -/
structure RTState where
  sessionActive : Bool
  currentSessionId : Option String
  hasCallback : Bool
deriving Repr, DecidableEq, Inhabited

/-- `transformWebSocketToAgentCommunication` of `websocket-service.ts`.
`now` stands for `Date.now()`. Note the JavaScript quirk faithfully kept: if
`data.simplified` is falsy and `data.fullContent` is `undefined`, the middle
operand of the `||` chain is the string `undefined...` (truthy), so the final
`'Communication received'` default is unreachable. -/
def transformWebSocketToAgentCommunication (m : WireMessage) (now : Nat) : Option AgentCommunication :=
  if m.type != "agent_communication" then none
  else
    match m.data with
    | none => none
    | some d =>
      some {
        id := jsOrStr d.id ("comm_" ++ toString now)
        timestamp := m.timestamp
        agent := jsOrStr d.agent "unknown"
        type := jsOrStr d.type "message"
        simplified := jsOrStr d.simplified (jsOrStrS (jsSubstr200 d.fullContent ++ "...") "Communication received")
        fullContent := some (jsOrStr d.fullContent (jsOrStr d.simplified "No content available"))
        toolCalls := some (d.toolCalls.getD [])
        results := some (d.results.getD [])
        status := jsOrStr d.status "completed"
        tableData := none }

/-- Stable insertion of a member into a rank-sorted list: the new (later)
element goes after existing elements of equal rank, matching the stable
`Array.prototype.sort` with comparator `(a, b) => a.rank - b.rank`. -/
def insertByRank (m : CongressMember) : List CongressMember → List CongressMember
  | [] => [m]
  | x :: xs => if x.rank ≤ m.rank then x :: insertByRank m xs else m :: x :: xs

/-- The in-place `members.sort((a, b) => a.rank - b.rank)` of
`formatTableResults`, as a stable pure sort. -/
def sortMembersByRank (ms : List CongressMember) : List CongressMember :=
  ms.foldl (fun acc m => insertByRank m acc) []

/-- One member entry of the formatted digest (the `forEach` body of
`formatTableResults`). -/
def formatMemberEntry (m : CongressMember) : String :=
  let partyInfo := match m.party with
    | some p => if p.isEmpty then "" else p ++ ", "
    | none => ""
  let stateDistrict := match m.district with
    | some d => if d.isEmpty then m.state else m.state ++ "-" ++ d
    | none => m.state
  "**" ++ toString m.rank ++ ". " ++ m.name ++ "** (" ++ partyInfo ++ stateDistrict ++ ") - " ++
    m.chamber ++ "\n" ++ String.mk (m.reason.data.take 200) ++
    (if 200 < m.reason.data.length then "..." else "") ++ "\n\n"

/-- `RealTimeService.formatTableResults`: a rank-ascending digest capped at
the top 10 members. -/
def formatTableResults (pt : ParsedTable) : String :=
  let b1 := "🏛️ **Congress Member Investigation Results**\n\n"
  let b2 := b1 ++ (match pt.billId with
    | some b => if b.isEmpty then "" else "**Bill:** " ++ b ++ "\n"
    | none => "")
  let b3 := b2 ++ "**Total Members Analyzed:** " ++ toString pt.totalMembers ++ "\n"
  let b4 := b3 ++ "**Investigation Status:** " ++
    (if pt.investigationComplete then "Complete" else "In Progress") ++ "\n\n"
  let b5 := b4 ++ "**Top 10 Most Involved Members:**\n\n"
  let top := (sortMembersByRank pt.members).take 10
  let b6 := top.foldl (fun acc m => acc ++ formatMemberEntry m) b5
  b6 ++ "\n*Full table data available in investigation results.*"

/-- The content scanned by the enrichment pass:
`communication.fullContent || communication.simplified || ''`. -/
def contentToCheck (c : AgentCommunication) : String :=
  jsOrStr c.fullContent (jsOrStrS c.simplified "")

/-- `RealTimeService.checkForTableContent`: parse the communication's text;
if a table with at least one member is found, mutate the communication in
place. The `sort` inside `formatTableResults` mutates the attached
`members` array, so the stored `tableData` carries the rank-sorted list. -/
def checkForTableContent (c : AgentCommunication) : AgentCommunication :=
  match parseCongressTable (contentToCheck c) with
  | none => c
  | some pt =>
    if 0 < pt.members.length then
      let pt' := { pt with members := sortMembersByRank pt.members }
      { c with
        tableData := some pt'
        type := "table_results"
        fullContent := some (formatTableResults pt')
        simplified := "Congress Investigation Results - " ++ toString pt.members.length ++ " members analyzed"
        status := "completed" }
    else c

/-- `RealTimeService.handleAgentCommunication`: transform, run the enrichment
pass, emit to the callback (when both the transform succeeded and a callback
is registered). -/
def handleAgentCommunication (st : RTState) (m : WireMessage) (now : Nat) : List AgentCommunication :=
  match transformWebSocketToAgentCommunication m now with
  | some c => if st.hasCallback then [checkForTableContent c] else []
  | none => []

/-- `RealTimeService.handleToolCallStart`. -/
def handleToolCallStart (st : RTState) (m : WireMessage) (now : Nat) : List AgentCommunication :=
  match m.data with
  | none => []
  | some d =>
    if !st.hasCallback then []
    else
      [{ id := "tool_start_" ++ jsOrStr d.id (toString now)
         timestamp := m.timestamp
         agent := jsOrStr d.agent "unknown"
         type := "tool_call"
         simplified := "Executing tool: " ++ jsShow d.name
         fullContent := some ("Tool call started: " ++ jsShow d.name ++ "\nArguments: " ++ jsStringifyOpt2 d.arguments)
         toolCalls := some [{ id := jsOrStr d.id "unknown", name := jsOrStr d.name "unknown_tool", arguments := d.arguments.getD (Json.obj []) }]
         results := some []
         status := "in_progress"
         tableData := none }]

/-- `RealTimeService.handleToolCallResult`. Note: unlike
`handleAgentCommunication`, this handler emits the communication directly,
without running `checkForTableContent`. -/
def handleToolCallResult (st : RTState) (m : WireMessage) (now : Nat) : List AgentCommunication :=
  match m.data with
  | none => []
  | some d =>
    if !st.hasCallback then []
    else
      let summary := jsOrStr d.summary ("Tool " ++ jsShow d.name ++ " " ++ (if d.success then "completed" else "failed"))
      let details := d.details.getD { key_findings := none, data_points := none }
      let fc0 := "Tool call result: " ++ jsShow d.name ++ "\n" ++
        "Status: " ++ (if d.success then "Success" else "Failed") ++ "\n" ++
        "Summary: " ++ summary ++ "\n\n"
      let fc1 := match details.key_findings with
        | some kf => if 0 < kf.length then fc0 ++ "Key Findings:\n" ++ joinNL (kf.map (fun f => "• " ++ f)) ++ "\n\n" else fc0
        | none => fc0
      let fc2 := match details.data_points with
        | some dp => if dp != 0 then fc1 ++ "Data Points Found: " ++ toString dp ++ "\n\n" else fc1
        | none => fc1
      let fc := fc2 ++ "Raw Result:\n" ++ jsStringifyOpt2 d.result
      [{ id := "tool_result_" ++ jsOrStr d.id (toString now)
         timestamp := m.timestamp
         agent := jsOrStr d.agent "unknown"
         type := "tool_call"
         simplified := summary
         fullContent := some fc
         toolCalls := some []
         results := some [{ call_id := jsOrStr d.id "unknown", content := d.result, is_error := !d.success }]
         status := if d.success then "completed" else "failed"
         tableData := none }]

/-- `RealTimeService.handleInvestigationComplete`. -/
def handleInvestigationComplete (st : RTState) (m : WireMessage) (now : Nat) : List AgentCommunication :=
  if !st.hasCallback then []
  else
    [{ id := "final_" ++ toString now
       timestamp := m.timestamp
       agent := "orchestrator"
       type := "message"
       simplified := "Investigation completed successfully"
       fullContent := some (renderJson2 (match m.data with
         | some d => d.raw
         | none => Json.obj [("status", Json.str "completed")]) 0)
       toolCalls := some []
       results := some []
       status := "completed"
       tableData := none }]

/-- `RealTimeService.handleInvestigationConcluded`: a pre-parsed table in the
payload yields a dedicated `table_results` communication (without invoking
the table parsing engine), followed by a conclusion message. -/
def handleInvestigationConcluded (st : RTState) (m : WireMessage) (now : Nat) : List AgentCommunication :=
  if !st.hasCallback then []
  else
    let table_available := match m.data with | some d => d.table_available | none => false
    let table_data := match m.data with | some d => d.table_data | none => none
    let tableStatus := if table_available then "Table available" else "No table found"
    let tableComms : List AgentCommunication :=
      if table_available && jsTruthyJ table_data then
        [{ id := "final_table_" ++ toString now
           timestamp := m.timestamp
           agent := "orchestrator"
           type := "table_results"
           simplified := "Investigation Results - " ++ toString (jsonMembersLen table_data) ++ " members analyzed"
           fullContent := table_data.map renderJsonC
           toolCalls := some []
           results := some []
           status := "completed"
           tableData := none }]
      else []
    tableComms ++
      [{ id := "conclusion_" ++ toString now
         timestamp := m.timestamp
         agent := "orchestrator"
         type := "message"
         simplified := "Investigation concluded - " ++ tableStatus
         fullContent := some ((jsOrStr (m.data.bind (fun d => d.conclusion_message)) "Investigation completed successfully") ++
           "\n\nTable Status: " ++ (jsOrStr (m.data.bind (fun d => d.table_status)) tableStatus) ++
           "\nConcluded by: " ++ (jsOrStr (m.data.bind (fun d => d.agent)) "Unknown agent"))
         toolCalls := some []
         results := some []
         status := "completed"
         tableData := none }]

/-- `RealTimeService.handleInvestigationError` with its rate-limit
heuristic. -/
def handleInvestigationError (st : RTState) (m : WireMessage) (now : Nat) : List AgentCommunication :=
  if !st.hasCallback then []
  else
    let errorMessage := jsOrStr m.error "Unknown error occurred"
    let isRateLimitError :=
      containsSub (chars "429") errorMessage.data ||
      containsSub (chars "Too Many Requests") errorMessage.data ||
      containsSub (chars "rate limit") errorMessage.data ||
      containsSub (chars "Retrying request") errorMessage.data
    let simplifiedMessage := if isRateLimitError then "OpenAI API is temporarily overloaded" else "Investigation encountered an error"
    let userFriendlyContent :=
      if isRateLimitError then
        "🚫 **OpenAI API Rate Limit Exceeded**\n\nThe OpenAI API is currently overloaded and cannot process your request at the moment.\n\n**What happened?**\nToo many requests are being sent to OpenAI's servers right now.\n\n**What you can do:**\n• Wait a few minutes and try again\n• The system will automatically retry failed requests\n• Consider trying again during off-peak hours\n\n**Technical details:**\n" ++ errorMessage
      else "Error: " ++ errorMessage
    [{ id := "error_" ++ toString now
       timestamp := m.timestamp
       agent := "orchestrator"
       type := "message"
       simplified := simplifiedMessage
       fullContent := some userFriendlyContent
       toolCalls := some []
       results := some []
       status := "failed"
       tableData := none }]

/-- `RealTimeService.handleWebSocketError`. -/
def handleWebSocketErrorComm (st : RTState) (m : WireMessage) (now : Nat) : List AgentCommunication :=
  if !st.hasCallback then []
  else
    [{ id := "ws_error_" ++ toString now
       timestamp := m.timestamp
       agent := "orchestrator"
       type := "message"
       simplified := "Connection error occurred"
       fullContent := some ("⚠️ **Connection Error**\n\nThere was a problem with the connection to the investigation server.\n\n**Error:** " ++
         jsOrStr m.message "Unknown connection error" ++
         "\n\n**What you can do:**\n• Check your internet connection\n• Refresh the page to reconnect\n• Try again in a few moments")
       toolCalls := some []
       results := some []
       status := "failed"
       tableData := none }]

/-- `RealTimeService.handleWebSocketMessage`: the dispatch table. Returns the
updated session state and the list of communications handed to the callback.
(For a well-typed envelope `validateWebSocketMessage` always passes, the
browser-global debug hook is absent, and no handler can throw, so the
top-level `try/catch` is vacuous.) -/
def handleWebSocketMessage (st : RTState) (m : WireMessage) (now : Nat) : RTState × List AgentCommunication :=
  if m.type == "agent_communication" then (st, handleAgentCommunication st m now)
  else if m.type == "tool_call_start" then (st, handleToolCallStart st m now)
  else if m.type == "tool_call_result" then (st, handleToolCallResult st m now)
  else if m.type == "investigation_complete" then ({ st with sessionActive := false }, handleInvestigationComplete st m now)
  else if m.type == "investigation_concluded" then ({ st with sessionActive := false }, handleInvestigationConcluded st m now)
  else if m.type == "investigation_error" then ({ st with sessionActive := false }, handleInvestigationError st m now)
  else if m.type == "connection_established" then (st, [])
  else if m.type == "error" then (st, handleWebSocketErrorComm st m now)
  else (st, [])

/-! ### Transport layer (`websocket-service.ts`) -/

/-- The connection state owned by `WebSocketService` that the reconnection
policy reads: the attempt counter and the manual-close flag. -/
structure WsConnState where
  reconnectAttempts : Nat
  isManualClose : Bool
deriving Repr, DecidableEq, Inhabited

/-- `maxReconnectAttempts = 5`. -/
def maxReconnectAttempts : Nat := 5

/-- `reconnectInterval = 1000` (milliseconds). -/
def reconnectInterval : Nat := 1000

/-- The `onclose` handler: schedule a reconnect (returning its delay in
milliseconds) only when the closure was not manual and the attempt counter is
below the maximum; otherwise schedule nothing. -/
def onCloseSchedule (st : WsConnState) : Option Nat :=
  if !st.isManualClose && st.reconnectAttempts < maxReconnectAttempts then
    some (reconnectInterval * st.reconnectAttempts)
  else none

/-- The `onopen` handler resets the attempt counter to 0. -/
def onOpenReset (st : WsConnState) : WsConnState :=
  { st with reconnectAttempts := 0 }

/-- The body of the scheduled reconnect callback increments the counter
before calling `connect()` again. -/
def reconnectCallback (st : WsConnState) : WsConnState :=
  { st with reconnectAttempts := st.reconnectAttempts + 1 }

/-- Delays of the reconnects scheduled along a run of consecutive connection
failures: each failed attempt fires `onclose` again; the loop stops as soon
as no reconnect is scheduled. Fuel-recursive; `maxReconnectAttempts + 1`
iterations always suffice. -/
def failLoopFuel : Nat → WsConnState → List Nat
  | 0, _ => []
  | fuel + 1, st =>
    match onCloseSchedule st with
    | none => []
    | some d => d :: failLoopFuel fuel (reconnectCallback st)

/-- The reconnect delays scheduled after an unexpected close followed by
consecutive failures. -/
def consecutiveFailureDelays (st : WsConnState) : List Nat :=
  failLoopFuel (maxReconnectAttempts + 1) st

/-- Outcome of the `startInvestigation` promise. -/
inductive StartOutcome where
  | resolve (sessionId : String)
  | reject (errMsg : String)
deriving Repr, DecidableEq, Inhabited

/-- The one-time `handleStart` handler of `startInvestigation`: resolve on
any whitelisted message type carrying the generated session id; reject on
`investigation_error`, or on a generic `error` whose message mentions the
investigation; otherwise keep waiting (`none`). -/
def startHandlerStep (sid : String) (m : WireMessage) : Option StartOutcome :=
  if (m.type == "investigation_started" || m.type == "agent_communication" || m.type == "tool_call_start")
      && m.sessionId == some sid then
    some (StartOutcome.resolve sid)
  else if m.type == "investigation_error" then
    some (StartOutcome.reject (jsOrStr m.error (jsOrStr m.message "Investigation failed to start")))
  else if m.type == "error" &&
      (match m.message with
       | some s => containsSub (chars "investigation") s.data
       | none => false) then
    some (StartOutcome.reject (jsOrStr m.message "Unknown error"))
  else none

/-- The 30-second timeout callback of `startInvestigation`: resolve
optimistically when a session id exists and the socket is open; otherwise
reject with the timeout error. -/
def startTimeoutOutcome (sessionId : Option String) (socketOpen : Bool) : StartOutcome :=
  match sessionId with
  | some sid =>
    if !sid.isEmpty && socketOpen then StartOutcome.resolve sid
    else StartOutcome.reject "Investigation start timeout - no server response"
  | none => StartOutcome.reject "Investigation start timeout - no server response"

/-- A registered message handler; a handler that throws is modelled as one
returning `Except.error`. -/
abbrev MsgHandler := WireMessage → Except String Unit

/-- The `messageHandlers` map in insertion order. -/
abbrev HandlerRegistry := List (String × MsgHandler)

/-- Did the handler run without throwing? -/
def handlerOk (r : Except String Unit) : Bool :=
  match r with
  | Except.ok _ => true
  | Except.error _ => false

/-- `WebSocketService.handleMessage`: every registered handler is invoked on
the message (in registry order); a handler that throws is removed from the
registry, and its exception is swallowed after logging. Returns the surviving
registry and the ids invoked. -/
def dispatchMessage : HandlerRegistry → WireMessage → HandlerRegistry × List String
  | [], _ => ([], [])
  | (hid, h) :: rest, m =>
    let r := dispatchMessage rest m
    match h m with
    | Except.ok _ => ((hid, h) :: r.1, hid :: r.2)
    | Except.error _ => (r.1, hid :: r.2)

/-- `RealTimeService.startSession`, with the asynchronous outcomes of
`connect()` and `startInvestigation` passed in as parameters. Returns the
resulting state, whether a start request was attempted, and the error thrown
(if any). -/
def startSessionModel (st : RTState) (connected : Bool)
    (connectRes : Except String Unit) (startRes : Except String String) :
    RTState × Bool × Option String :=
  if st.sessionActive then (st, false, some "Investigation session is already active")
  else
    match (if connected then Except.ok () else
      connectRes.mapError (fun _ => "Unable to connect to AutoGen server. Please ensure the server is running.")) with
    | Except.error e => (st, false, some e)
    | Except.ok _ =>
      let st1 := { st with hasCallback := true }
      match startRes with
      | Except.ok sid => ({ st1 with sessionActive := true, currentSessionId := some sid }, true, none)
      | Except.error e => ({ st1 with hasCallback := false }, true, some e)

/-! ### Canonical single-table texts and concrete example inputs -/

/-- The canonical table header line produced by the orchestrator agent. -/
def headerLine : List Char :=
  chars "| Congress Member | Chamber | State/District | Involvement Rank | Reason |"

/-- The canonical markdown separator line. -/
def dashLine : List Char := chars "|---|---|---|---|---|"

/-- A canonical single-table text: header, separator, then the data rows. -/
def mkSingleTable (rows : List (List Char)) : List Char :=
  jsJoin '\n' (headerLine :: dashLine :: rows)

/-- Has the line no newline character? -/
def noNL (l : List Char) : Bool := l.all (fun c => !(c == '\n'))

/-- A syntactically valid data row for a canonical single table: a single
line that parses to a member and that cannot be mistaken for a header, a
separator, or one of the section-terminating phrases. -/
def goodRow (r : List Char) : Bool :=
  noNL r &&
  !containsSub (chars "Congress Member") (jsTrim r) &&
  !headerMatch r &&
  !sepLineMatch (jsTrim r) &&
  !containsSub (chars "---") (jsTrim r) &&
  !containsSub (chars "interpretive notes") (lowerC (jsTrim r)) &&
  !containsSub (chars "conclusion") (lowerC (jsTrim r)) &&
  (parseTableRow (jsTrim r)).isSome

/-- Two qualifying header lines with no data rows (counterexample input). -/
def twoHeadersNoRows : String :=
  "| Congress Member | Chamber | Involvement Rank |\n| Congress Member | Chamber | Involvement Rank |"

/-- Exactly one well-formed header (in the `party` variant) and one valid
data row; the text matches only two of the table indicators. -/
def partyHeaderTable : String :=
  "| Congress Member | Party | State | Involvement Rank | Why |\n| Joe Manchin (D) | Democrat | WV | 1 | Coal ties |"

/-- The data row of `partyHeaderTable`. -/
def partyHeaderRow : String := "| Joe Manchin (D) | Democrat | WV | 1 | Coal ties |"

/-- A canonical table whose single row has the rank cell `0`. -/
def rankZeroTable : String :=
  "| Congress Member | Chamber | State/District | Involvement Rank | Reason |\n|---|---|---|---|---|\n| John Doe | Senator | TN | 0 | Helped |"

/-- A canonical table with one valid row of rank 3 (witness input). -/
def canonicalTable : String :=
  "| Congress Member | Chamber | State/District | Involvement Rank | Reason |\n|---|---|---|---|---|\n| Joe Manchin (D) | Senator | WV | 3 | Coal ties |"

/-- The canonical witness row as a raw line. -/
def canonicalRow : List Char := chars "| Joe Manchin (D) | Senator | WV | 3 | Coal ties |"

/-- An empty `data` payload, to be overridden field by field. -/
def emptyWsData : WsData where
  id := none
  agent := none
  type := none
  simplified := none
  fullContent := none
  toolCalls := none
  results := none
  status := none
  name := none
  arguments := none
  summary := none
  details := none
  success := false
  result := none
  table_available := false
  table_data := none
  conclusion_message := none
  table_status := none
  raw := Json.obj []

/-- A `tool_call_result` payload whose LLM-provided summary embeds a complete
congressional table. -/
def toolResultData : WsData :=
  { emptyWsData with
    id := some "t1"
    agent := some "bill_specialist"
    name := some "getTable"
    summary := some "x\n| Congress Member | Chamber | State/District | Involvement Rank | Reason |\n|---|---|---|---|---|\n| Joe Manchin (D) | Senator | WV | 1 | Coal ties |"
    success := true
    result := some (Json.str "ok") }

/-- A `tool_call_result` wire message carrying `toolResultData`. -/
def msgToolResult : WireMessage where
  type := "tool_call_result"
  sessionId := some "s1"
  timestamp := "2024-01-01T00:00:00Z"
  data := some toolResultData
  message := none
  error := none

/-- An `agent_communication` wire message with a plain text payload. -/
def msgAgentComm : WireMessage where
  type := "agent_communication"
  sessionId := some "s1"
  timestamp := "2024-01-01T00:00:00Z"
  data := some { emptyWsData with agent := some "orchestrator", simplified := some "hello" }
  message := none
  error := none

/-- A session state with a registered communication callback. -/
def stWithCallback : RTState where
  sessionActive := true
  currentSessionId := some "s1"
  hasCallback := true

/-- A handler that never throws. -/
def goodHandler : MsgHandler := fun _ => Except.ok ()

/-- A handler that always throws. -/
def badHandler : MsgHandler := fun _ => Except.error "boom"

/-- A registry with a faulty handler registered between two healthy ones. -/
def exampleRegistry : HandlerRegistry :=
  [("ui", goodHandler), ("faulty", badHandler), ("logger", goodHandler)]

/-- A minimal valid wire message used to exercise dispatch. -/
def msgPing : WireMessage where
  type := "connection_established"
  sessionId := none
  timestamp := "2024-01-01T00:00:00Z"
  data := none
  message := none
  error := none

/-- A syntactically valid data row (five cells, parseable rank) whose reason
cell mentions "conclusion", one of the section-terminating phrases. -/
def conclusionRow : List Char :=
  chars "| John Smith | Senator | TN | 2 | Led the conclusion of hearings |"

/-- A syntactically valid data row whose name cell contains
"Congress Member", the header marker that both resets the extracted section
and causes the row to be skipped. -/
def memberNameRow : List Char :=
  chars "| Congress Member Watch | Senator | TN | 2 | Observed |"

/-! ### Helper lemmas -/

theorem parseRank_nonneg (cell : List Char) (r : Int) (h : parseRank cell = some r) : 0 ≤ r := by
  unfold parseRank at h
  split at h
  · exact absurd h (by simp)
  · injection h with h'
    subst h'
    exact Int.ofNat_nonneg _

theorem parseTableRow_rank_nonneg (t : List Char) (m : CongressMember)
    (h : parseTableRow t = some m) : 0 ≤ m.rank := by
  unfold parseTableRow at h
  split at h
  · rename_i c0 c1 c2 c3 c4 rest heq
    split at h
    · exact absurd h (by simp)
    · rename_i rank hrank
      injection h with h'
      subst h'
      exact parseRank_nonneg c3 rank hrank
  · exact absurd h (by simp)

theorem rowStep_rank_nonneg (l : List Char) (m : CongressMember)
    (h : rowStep l = some m) : 0 ≤ m.rank := by
  simp only [rowStep] at h
  split at h
  · exact absurd h (by simp)
  · exact parseTableRow_rank_nonneg _ _ h

theorem parseRowsLines_rank_nonneg (ls : List (List Char)) (m : CongressMember)
    (h : m ∈ parseRowsLines ls) : 0 ≤ m.rank := by
  unfold parseRowsLines at h
  obtain ⟨l, -, hl⟩ := List.mem_filterMap.mp h
  exact rowStep_rank_nonneg l m hl

theorem parseTableRows_rank_nonneg (sec : List Char) (m : CongressMember)
    (h : m ∈ parseTableRows sec) : 0 ≤ m.rank :=
  parseRowsLines_rank_nonneg _ m h

theorem alignedRowsOf_rank_nonneg (content : List Char) (m : CongressMember)
    (h : m ∈ alignedRowsOf content) : 0 ≤ m.rank := by
  unfold alignedRowsOf at h
  split at h
  · exact parseTableRows_rank_nonneg _ m h
  · exact absurd h (by simp)

theorem opposedRowsOf_rank_nonneg (content : List Char) (m : CongressMember)
    (h : m ∈ opposedRowsOf content) : 0 ≤ m.rank := by
  unfold opposedRowsOf at h
  split at h
  · exact parseTableRows_rank_nonneg _ m h
  · exact absurd h (by simp)

/-! ### C7: the parsing engine is total and a non-null result is never empty -/

/-- C7. `parseCongressTable` is a total function of the input text (the
embedding of every helper is a total function, which models "never throws
outward: any internal exception is caught and the function returns null");
moreover a detected-but-empty table yields `none`: every non-`none` result
carries at least one member, with `totalMembers` consistent. -/
theorem claim_C7 : ∀ (content : List Char) (pt : ParsedTable),
    parseOrchestratorTable content = some pt →
    pt.members ≠ [] ∧ pt.totalMembers = pt.members.length := by
  intro content pt h
  unfold parseOrchestratorTable at h
  split at h
  · simp only [parseDualTables] at h
    split at h
    · exact absurd h (by simp)
    · rename_i hne
      injection h with h'
      subst h'
      refine ⟨?_, rfl⟩
      simpa [List.isEmpty_iff] using hne
  · simp only [parseSingleTable] at h
    split at h
    · exact absurd h (by simp)
    · split at h
      · exact absurd h (by simp)
      · rename_i sec hsec
        split at h
        · exact absurd h (by simp)
        · rename_i hne
          injection h with h'
          subst h'
          refine ⟨?_, rfl⟩
          simpa [List.isEmpty_iff] using hne

/-- Witness for C7 at a concrete table. -/
theorem claim_C7_witness :
    ((parseCongressTable canonicalTable).getD default).members ≠ [] :=
  (claim_C7 canonicalTable.data ((parseCongressTable canonicalTable).getD default) (by rfl)).1

/-! ### C4: ranks and dropped rows -/

/-- C4, corrected. Every member of a non-`none` parse result has a
*nonnegative* integer rank (the rank cell `0` parses to rank 0, so
positivity does not hold); a data row whose rank cell yields no parseable
integer — equivalently, contains no digit — is dropped, and dropping it does
not abort the parsing of the remaining rows. -/
theorem claim_C4 :
    (∀ (content : List Char) (pt : ParsedTable), parseOrchestratorTable content = some pt →
      ∀ m ∈ pt.members, 0 ≤ m.rank)
    ∧ (∀ row : List Char, parseRank ((cellsOf row).getD 3 []) = none → parseTableRow row = none)
    ∧ (∀ cell : List Char, parseRank cell = none ↔ cell.all (fun c => !c.isDigit) = true)
    ∧ (∀ (pre post : List (List Char)) (bad : List Char), rowStep bad = none →
        parseRowsLines (pre ++ bad :: post) = parseRowsLines (pre ++ post)) := by
  refine ⟨?_, ?_, ?_, ?_⟩
  · intro content pt h m hm
    unfold parseOrchestratorTable at h
    split at h
    · simp only [parseDualTables] at h
      split at h
      · exact absurd h (by simp)
      · injection h with h'
        subst h'
        rcases List.mem_append.mp hm with hma | hmo
        · exact alignedRowsOf_rank_nonneg content m hma
        · exact opposedRowsOf_rank_nonneg content m hmo
    · simp only [parseSingleTable] at h
      split at h
      · exact absurd h (by simp)
      · split at h
        · exact absurd h (by simp)
        · rename_i sec hsec
          split at h
          · exact absurd h (by simp)
          · injection h with h'
            subst h'
            exact parseTableRows_rank_nonneg sec m hm
  · intro row h
    unfold parseTableRow
    split
    · rename_i c0 c1 c2 c3 c4 rest heq
      rw [heq] at h
      simp only [List.getD_cons_succ, List.getD_cons_zero] at h
      rw [h]
    · rfl
  · intro cell
    unfold parseRank
    constructor
    · intro h
      split at h
      · rename_i hdrop
        rw [List.all_eq_true]
        intro x hx
        exact List.dropWhile_eq_nil_iff.mp hdrop x hx
      · exact absurd h (by simp)
    · intro h
      have : cell.dropWhile (fun c => !c.isDigit) = [] :=
        List.dropWhile_eq_nil_iff.mpr (fun x hx => List.all_eq_true.mp h x hx)
      rw [this]
  · intro pre post bad h
    unfold parseRowsLines
    simp [List.filterMap_append, List.filterMap_cons, h]

/-- C4 counterexample to "positive": the rank cell `0` produces a member with
rank 0 in a non-null parse result. -/
theorem claim_C4_counterexample :
    (parseCongressTable rankZeroTable).map (fun pt => pt.members.map (fun m => m.rank)) = some [0] := by
  decide

/-- Witness for C4 at a concrete table. -/
theorem claim_C4_witness :
    0 ≤ (((parseCongressTable canonicalTable).getD default).members.getD 0 default).rank :=
  claim_C4.1 canonicalTable.data ((parseCongressTable canonicalTable).getD default) (by rfl)
    (((parseCongressTable canonicalTable).getD default).members.getD 0 default) (by decide)

/-! ### C2: dual-table mode -/

/-- C2, corrected. Exactly two qualifying header lines trigger dual-table
mode: then either both extracted tables yield zero valid rows and parsing
returns `none` (the claim's unconditional non-null result fails there), or
the result has `hasDualTables = true`, `alignedMembers` exactly the rows of
the first extracted table and `opposedMembers` exactly the rows of the
second. Any other header count falls through to single-table mode. -/
theorem claim_C2 : ∀ content : List Char,
    (headerCount content = 2 →
      (alignedRowsOf content ++ opposedRowsOf content = [] ∧ parseOrchestratorTable content = none) ∨
      (∃ pt, parseOrchestratorTable content = some pt ∧ pt.hasDualTables = some true ∧
        pt.alignedMembers = some (alignedRowsOf content) ∧
        pt.opposedMembers = some (opposedRowsOf content) ∧
        pt.members = alignedRowsOf content ++ opposedRowsOf content ∧
        pt.totalMembers = (alignedRowsOf content ++ opposedRowsOf content).length))
    ∧ (headerCount content ≠ 2 → parseOrchestratorTable content = parseSingleTable content) := by
  intro content
  constructor
  · intro h2
    have hd : detectDualTables content = true := by
      simp [detectDualTables, h2]
    by_cases he : alignedRowsOf content ++ opposedRowsOf content = []
    · left
      refine ⟨he, ?_⟩
      simp only [parseOrchestratorTable, hd, if_true, parseDualTables, he]
      simp
    · right
      refine ⟨{ members := alignedRowsOf content ++ opposedRowsOf content
                totalMembers := (alignedRowsOf content ++ opposedRowsOf content).length
                investigationComplete := isInvestigationComplete content
                billId := extractBillId content
                hasDualTables := some true
                alignedMembers := some (alignedRowsOf content)
                opposedMembers := some (opposedRowsOf content) }, ?_, rfl, rfl, rfl, rfl, rfl⟩
      simp only [parseOrchestratorTable, hd, if_true, parseDualTables]
      rw [if_neg (by simp [he])]
  · intro hne
    have hd : detectDualTables content = false := by
      simp [detectDualTables, hne]
    simp [parseOrchestratorTable, hd]

/-- C2 counterexample: two qualifying header lines with no data rows make the
parse return `none` instead of a dual-table result. -/
theorem claim_C2_counterexample :
    headerCount twoHeadersNoRows.data = 2 ∧ parseCongressTable twoHeadersNoRows = none := by
  decide

/-- Witness for C2 (fall-through branch at a concrete single-header text). -/
theorem claim_C2_witness :
    parseOrchestratorTable canonicalTable.data = parseSingleTable canonicalTable.data :=
  (claim_C2 canonicalTable.data).2 (by decide)

/-! ### C5: startInvestigation resolution policy -/

/-- C5. The one-time start handler resolves on any of
`investigation_started` / `agent_communication` / `tool_call_start` carrying
the generated session id; it rejects on `investigation_error` and on a
generic `error` whose message mentions the investigation. On the 30-second
timeout, the call resolves when a session id exists and the socket is still
open, and rejects with the timeout error when the socket is not open. -/
theorem claim_C5 :
    (∀ (m : WireMessage) (sid : String),
      (m.type = "investigation_started" ∨ m.type = "agent_communication" ∨ m.type = "tool_call_start") →
      m.sessionId = some sid →
      startHandlerStep sid m = some (StartOutcome.resolve sid))
    ∧ (∀ (m : WireMessage) (sid : String), m.type = "investigation_error" →
      startHandlerStep sid m =
        some (StartOutcome.reject (jsOrStr m.error (jsOrStr m.message "Investigation failed to start"))))
    ∧ (∀ (m : WireMessage) (sid : String) (s : String), m.type = "error" → m.message = some s →
      containsSub (chars "investigation") s.data = true →
      startHandlerStep sid m = some (StartOutcome.reject (jsOrStr m.message "Unknown error")))
    ∧ (∀ sid : String, sid ≠ "" → startTimeoutOutcome (some sid) true = StartOutcome.resolve sid)
    ∧ (∀ osid : Option String,
      startTimeoutOutcome osid false = StartOutcome.reject "Investigation start timeout - no server response") := by
  refine ⟨?_, ?_, ?_, ?_, ?_⟩
  · intro m sid ht hs
    rcases ht with h | h | h <;> simp [startHandlerStep, h, hs]
  · intro m sid h
    simp [startHandlerStep, h]
  · intro m sid s h hmsg hsub
    simp [startHandlerStep, h, hmsg, hsub]
  · intro sid h
    have : sid.isEmpty = false := by
      cases hz : sid.isEmpty
      · rfl
      · exact absurd ((String.isEmpty_iff sid).mp hz) h
    simp [startTimeoutOutcome, this]
  · intro osid
    cases osid <;> simp [startTimeoutOutcome]

/-- Witness for C5 at concrete messages. -/
theorem claim_C5_witness :
    startHandlerStep "s1"
        { type := "agent_communication", sessionId := some "s1", timestamp := "T",
          data := none, message := none, error := none } =
      some (StartOutcome.resolve "s1")
    ∧ startTimeoutOutcome (some "s1") false =
      StartOutcome.reject "Investigation start timeout - no server response" :=
  ⟨claim_C5.1 _ "s1" (Or.inr (Or.inl rfl)) rfl, claim_C5.2.2.2.2 (some "s1")⟩

/-! ### C6: reconnection policy -/

/-- C6. After an unexpected close a reconnect is scheduled exactly when the
manual-close flag is unset and the attempt counter is below 5, with delay
`1000 * attempts`; no reconnect is scheduled after 5 attempts or after a
manual `disconnect()`. Starting from a fresh counter, a run of consecutive
failures schedules exactly five reconnects and then stops. -/
theorem claim_C6 :
    (∀ st : WsConnState, st.isManualClose = true → onCloseSchedule st = none)
    ∧ (∀ st : WsConnState, maxReconnectAttempts ≤ st.reconnectAttempts → onCloseSchedule st = none)
    ∧ (∀ st : WsConnState, st.isManualClose = false → st.reconnectAttempts < maxReconnectAttempts →
      onCloseSchedule st = some (reconnectInterval * st.reconnectAttempts))
    ∧ consecutiveFailureDelays ⟨0, false⟩ = [0, 1000, 2000, 3000, 4000] := by
  refine ⟨?_, ?_, ?_, by decide⟩
  · intro st h
    simp [onCloseSchedule, h]
  · intro st h
    have : ¬ st.reconnectAttempts < maxReconnectAttempts := Nat.not_lt.mpr h
    simp [onCloseSchedule, this]
  · intro st h1 h2
    simp [onCloseSchedule, h1, h2]

/-- Witness for C6 at concrete connection states. -/
theorem claim_C6_witness :
    onCloseSchedule ⟨5, false⟩ = none
    ∧ onCloseSchedule ⟨0, true⟩ = none
    ∧ onCloseSchedule ⟨3, false⟩ = some (reconnectInterval * 3) :=
  ⟨claim_C6.2.1 ⟨5, false⟩ (by decide), claim_C6.1 ⟨0, true⟩ rfl,
    claim_C6.2.2.1 ⟨3, false⟩ rfl (by decide)⟩

/-! ### C10: the reconnect budget is per connection, not per lifetime -/

/-- C10. Every successful open resets the attempt counter to 0, so after any
history the policy again allows five consecutive failed reconnects (the
budget bounds failures since the most recent successful connection). -/
theorem claim_C10 : ∀ st : WsConnState,
    (onOpenReset st).reconnectAttempts = 0
    ∧ (st.isManualClose = false →
      consecutiveFailureDelays (onOpenReset st) = [0, 1000, 2000, 3000, 4000]) := by
  intro st
  refine ⟨rfl, ?_⟩
  intro h
  have hst : onOpenReset st = ⟨0, false⟩ := by
    cases st with
    | mk a m => simp [onOpenReset] at h ⊢; exact h
  rw [hst]
  decide

/-- Witness for C10 after a long failure history. -/
theorem claim_C10_witness :
    consecutiveFailureDelays (onOpenReset ⟨17, false⟩) = [0, 1000, 2000, 3000, 4000] :=
  (claim_C10 ⟨17, false⟩).2 rfl

/-! ### C8: self-healing dispatch -/

/-- C8. During dispatch every registered handler is invoked on the message
(in registry order) regardless of earlier throwers, the surviving registry is
exactly the handlers that did not throw on this message, and a handler that
threw is no longer registered (so it receives no subsequent messages). The
dispatch function is total, modelling that no handler exception propagates to
the transport's caller. -/
theorem claim_C8 : ∀ (reg : HandlerRegistry) (m : WireMessage),
    (dispatchMessage reg m).2 = reg.map Prod.fst
    ∧ (dispatchMessage reg m).1 = reg.filter (fun p => handlerOk (p.2 m))
    ∧ ∀ p ∈ reg, handlerOk (p.2 m) = false → p ∉ (dispatchMessage reg m).1 := by
  intro reg m
  have h12 : (dispatchMessage reg m).2 = reg.map Prod.fst
      ∧ (dispatchMessage reg m).1 = reg.filter (fun p => handlerOk (p.2 m)) := by
    induction reg with
    | nil => exact ⟨rfl, rfl⟩
    | cons hd tl ih =>
      obtain ⟨hid, hf⟩ := hd
      obtain ⟨ih1, ih2⟩ := ih
      cases hh : hf m with
      | ok u =>
        constructor <;>
          simp [dispatchMessage, hh, ih1, ih2, handlerOk, List.filter_cons]
      | error e =>
        constructor <;>
          simp [dispatchMessage, hh, ih1, ih2, handlerOk, List.filter_cons]
  refine ⟨h12.1, h12.2, ?_⟩
  intro p hp hbad hmem
  rw [h12.2] at hmem
  have := (List.mem_filter.mp hmem).2
  simp only [hbad] at this
  exact absurd this (by simp)

/-- Witness for C8: the faulty handler is invoked once, then removed. -/
theorem claim_C8_witness :
    (dispatchMessage exampleRegistry msgPing).2 = ["ui", "faulty", "logger"]
    ∧ ("faulty", badHandler) ∉ (dispatchMessage exampleRegistry msgPing).1 :=
  ⟨by rw [(claim_C8 exampleRegistry msgPing).1]; rfl,
    (claim_C8 exampleRegistry msgPing).2.2 ("faulty", badHandler)
      (List.mem_cons_of_mem _ (List.mem_cons_self _ _)) rfl⟩

/-! ### C9: startSession fails fast when already active -/

/-- C9. Calling `startSession` while a session is already active throws
synchronously: the state (active flag, current session id, registered
callback) is returned unchanged, no start request is sent, and the error is
the fixed "already active" message. -/
theorem claim_C9 : ∀ (st : RTState) (connected : Bool)
    (connectRes : Except String Unit) (startRes : Except String String),
    st.sessionActive = true →
    startSessionModel st connected connectRes startRes =
      (st, false, some "Investigation session is already active") := by
  intro st c cr sr h
  simp [startSessionModel, h]

/-- Witness for C9 at a concrete active state. -/
theorem claim_C9_witness :
    startSessionModel stWithCallback true (Except.ok ()) (Except.ok "s2") =
      (stWithCallback, false, some "Investigation session is already active") :=
  claim_C9 stWithCallback true (Except.ok ()) (Except.ok "s2") rfl

/-! ### C1: the enrichment pass -/

/-- C1, corrected. Only communications produced from `agent_communication`
wire messages are passed through the table parsing engine before reaching the
callback: `handleAgentCommunication` emits exactly
`checkForTableContent (transform msg)`, and when the parse finds a table with
at least one member, `checkForTableContent` mutates the communication in
place (attaching the parsed table with its members rank-sorted, retyping it
`table_results`, regenerating `fullContent` as the formatted digest and
`simplified` as the member-count summary, and forcing `completed`).
Communications emitted for other wire-message types — in particular
`tool_call_result` — are emitted without any table parsing or mutation. -/
theorem claim_C1 :
    (∀ (st : RTState) (m : WireMessage) (now : Nat) (c : AgentCommunication),
      m.type = "agent_communication" → st.hasCallback = true →
      transformWebSocketToAgentCommunication m now = some c →
      (handleWebSocketMessage st m now).2 = [checkForTableContent c])
    ∧ (∀ (c : AgentCommunication) (pt : ParsedTable),
      parseCongressTable (contentToCheck c) = some pt → 0 < pt.members.length →
      checkForTableContent c =
        { c with
          tableData := some { pt with members := sortMembersByRank pt.members }
          type := "table_results"
          fullContent := some (formatTableResults { pt with members := sortMembersByRank pt.members })
          simplified := "Congress Investigation Results - " ++ toString pt.members.length ++ " members analyzed"
          status := "completed" })
    ∧ (∀ c : AgentCommunication, parseCongressTable (contentToCheck c) = none →
      checkForTableContent c = c)
    ∧ (∀ (st : RTState) (m : WireMessage) (now : Nat), m.type = "tool_call_result" →
      ∀ c ∈ (handleWebSocketMessage st m now).2, c.type = "tool_call" ∧ c.tableData = none) := by
  refine ⟨?_, ?_, ?_, ?_⟩
  · intro st m now c ht hcb htr
    simp [handleWebSocketMessage, ht, handleAgentCommunication, htr, hcb]
  · intro c pt hp hlen
    simp only [checkForTableContent, hp]
    rw [if_pos hlen]
  · intro c hp
    simp only [checkForTableContent, hp]
  · intro st m now ht c hc
    obtain ⟨mt, ms, mts, md, mm, me⟩ := m
    dsimp only at ht
    subst ht
    have hc' : c ∈ handleToolCallResult st ⟨"tool_call_result", ms, mts, md, mm, me⟩ now := hc
    cases md with
    | none => simp [handleToolCallResult] at hc'
    | some d =>
      simp only [handleToolCallResult] at hc'
      split at hc'
      · simp at hc'
      · rw [List.mem_singleton] at hc'
        subst hc'
        exact ⟨rfl, rfl⟩

set_option maxRecDepth 10000 in
/-- C1 counterexample: a `tool_call_result` message whose payload summary
embeds a complete one-member table is emitted with its table text intact
(parsing the emitted communication's content finds one member), yet the
communication keeps `type = tool_call` and carries no `tableData` — the
enrichment pass was not applied. -/
theorem claim_C1_counterexample :
    (handleWebSocketMessage stWithCallback msgToolResult 7).2.map
        (fun c => (c.type, c.tableData.isSome)) = [("tool_call", false)]
    ∧ (handleWebSocketMessage stWithCallback msgToolResult 7).2.map
        (fun c => (parseCongressTable (contentToCheck c)).map (fun pt => pt.members.length)) = [some 1] := by
  constructor
  · decide
  · decide

/-- Witness for C1 at a concrete `agent_communication` message. -/
theorem claim_C1_witness :
    (handleWebSocketMessage stWithCallback msgAgentComm 3).2 =
      [checkForTableContent ((transformWebSocketToAgentCommunication msgAgentComm 3).getD default)] :=
  claim_C1.1 stWithCallback msgAgentComm 3
    ((transformWebSocketToAgentCommunication msgAgentComm 3).getD default) rfl rfl (by rfl)

/-! ### C3: single-table parsing of canonical tables -/

theorem hasPrefixC_append (n h t : List Char) (hp : hasPrefixC n h = true) :
    hasPrefixC n (h ++ t) = true := by
  induction n generalizing h with
  | nil => rfl
  | cons n0 ns ih =>
    cases h with
    | nil => exact absurd hp (by simp [hasPrefixC])
    | cons h0 hs =>
      simp only [hasPrefixC, Bool.and_eq_true] at hp
      simp only [List.cons_append, hasPrefixC, Bool.and_eq_true]
      exact ⟨hp.1, ih hs hp.2⟩

theorem containsSub_nil_left (h : List Char) : containsSub [] h = true := by
  cases h with
  | nil => rfl
  | cons c cs => simp [containsSub, hasPrefixC]

theorem containsSub_append_left (n a b : List Char) (h : containsSub n a = true) :
    containsSub n (a ++ b) = true := by
  induction a with
  | nil =>
    simp only [containsSub, List.isEmpty_iff] at h
    subst h
    exact containsSub_nil_left b
  | cons c cs ih =>
    simp only [containsSub, Bool.or_eq_true] at h
    rcases h with h | h
    · simp only [List.cons_append, containsSub, Bool.or_eq_true]
      exact Or.inl (hasPrefixC_append n (c :: cs) b h)
    · simp only [List.cons_append, containsSub, Bool.or_eq_true]
      exact Or.inr (ih h)

theorem jsSplit_ne_nil (sep : Char) (l : List Char) : jsSplit sep l ≠ [] := by
  cases l with
  | nil => simp [jsSplit]
  | cons c cs =>
    simp only [jsSplit]
    split
    · simp
    · split <;> simp

theorem jsSplit_noSep (sep : Char) (l : List Char)
    (h : l.all (fun c => !(c == sep)) = true) : jsSplit sep l = [l] := by
  induction l with
  | nil => rfl
  | cons c cs ih =>
    simp only [List.all_cons, Bool.and_eq_true, Bool.not_eq_true'] at h
    simp only [jsSplit, ih (by simpa using h.2), h.1]
    simp [h.1]

theorem jsSplit_sep_cons (sep : Char) (l r : List Char)
    (h : l.all (fun c => !(c == sep)) = true) :
    jsSplit sep (l ++ sep :: r) = l :: jsSplit sep r := by
  induction l with
  | nil =>
    simp only [List.nil_append, jsSplit]
    have := jsSplit_ne_nil sep r
    cases hr : jsSplit sep r with
    | nil => exact absurd hr this
    | cons h0 t0 => simp
  | cons c cs ih =>
    simp only [List.all_cons, Bool.and_eq_true, Bool.not_eq_true'] at h
    simp only [List.cons_append, jsSplit, h.1]
    simp only [List.append_eq]
    rw [ih (by simpa using h.2)]
    simp

theorem jsSplit_join (sep : Char) (ls : List (List Char)) (hne : ls ≠ [])
    (h : ∀ l ∈ ls, l.all (fun c => !(c == sep)) = true) :
    jsSplit sep (jsJoin sep ls) = ls := by
  induction ls with
  | nil => exact absurd rfl hne
  | cons l ls ih =>
    cases ls with
    | nil => exact jsSplit_noSep sep l (h l (by simp))
    | cons l' ls' =>
      simp only [jsJoin]
      rw [jsSplit_sep_cons sep l _ (h l (by simp))]
      rw [ih (by simp) (fun x hx => h x (List.mem_cons_of_mem _ hx))]

theorem length_filterMap_all_isSome {α β : Type} (f : α → Option β) (l : List α)
    (h : ∀ x ∈ l, (f x).isSome = true) : (l.filterMap f).length = l.length := by
  induction l with
  | nil => rfl
  | cons x xs ih =>
    have hx := h x (by simp)
    cases hfx : f x with
    | none => rw [hfx] at hx; exact absurd hx (by simp)
    | some b =>
      simp only [List.filterMap_cons, hfx, List.length_cons]
      rw [ih (fun y hy => h y (List.mem_cons_of_mem _ hy))]

theorem filterMap_congr_mem {α β : Type} (f g : α → Option β) (l : List α)
    (h : ∀ x ∈ l, f x = g x) : l.filterMap f = l.filterMap g := by
  induction l with
  | nil => rfl
  | cons x xs ih =>
    simp only [List.filterMap_cons, h x (by simp)]
    rw [ih (fun y hy => h y (List.mem_cons_of_mem _ hy))]

/-- Decomposition of `goodRow`. -/
theorem goodRow_spec (r : List Char) (h : goodRow r = true) :
    noNL r = true
    ∧ containsSub (chars "Congress Member") (jsTrim r) = false
    ∧ headerMatch r = false
    ∧ sepLineMatch (jsTrim r) = false
    ∧ containsSub (chars "---") (jsTrim r) = false
    ∧ containsSub (chars "interpretive notes") (lowerC (jsTrim r)) = false
    ∧ containsSub (chars "conclusion") (lowerC (jsTrim r)) = false
    ∧ (parseTableRow (jsTrim r)).isSome = true := by
  simp only [goodRow, Bool.and_eq_true, Bool.not_eq_true'] at h
  exact ⟨h.1.1.1.1.1.1.1, h.1.1.1.1.1.1.2, h.1.1.1.1.1.2, h.1.1.1.1.2,
    h.1.1.1.2, h.1.1.2, h.1.2, h.2⟩

theorem parseTableRow_isSome_ne_nil (t : List Char) (h : (parseTableRow t).isSome = true) :
    t.isEmpty = false := by
  cases t with
  | nil => exact absurd h (by decide)
  | cons c cs => rfl

theorem rowStep_of_goodRow (r : List Char) (h : goodRow r = true) :
    rowStep r = parseTableRow (jsTrim r) := by
  obtain ⟨-, h2, -, h4, -, -, -, h8⟩ := goodRow_spec r h
  have hne : (jsTrim r).isEmpty = false := parseTableRow_isSome_ne_nil _ h8
  simp [rowStep, hne, h2, h4]

theorem sectionScan_goodRows (rows : List (List Char))
    (h : ∀ r ∈ rows, goodRow r = true) :
    ∀ i, sectionScan rows i (some 0) = (some 0, none) := by
  induction rows with
  | nil => intro i; rfl
  | cons r rest ih =>
    intro i
    obtain ⟨-, h2, -, h4, h5, h6, h7, h8⟩ := goodRow_spec r (h r (by simp))
    have hnil : (jsTrim r).isEmpty = false := parseTableRow_isSome_ne_nil _ h8
    have hend : sectionEndCond (jsTrim r) = false := by
      simp [sectionEndCond, hnil, h5, h6, h7]
    simp only [sectionScan, h2, Bool.false_and, if_false, Option.isSome_some, Bool.true_and, h4,
      if_false, hend, Bool.and_false]
    exact ih (fun x hx => h x (List.mem_cons_of_mem _ hx)) (i + 1)

theorem sectionScan_canonical (rows : List (List Char))
    (h : ∀ r ∈ rows, goodRow r = true) :
    sectionScan (headerLine :: dashLine :: rows) 0 none = (some 0, none) := by
  have hstep : sectionScan (headerLine :: dashLine :: rows) 0 none = sectionScan rows 2 (some 0) := by
    rfl
  rw [hstep]
  exact sectionScan_goodRows rows h 2

theorem mkSingleTable_lines (rows : List (List Char))
    (h : ∀ r ∈ rows, goodRow r = true) :
    jsSplit '\n' (mkSingleTable rows) = headerLine :: dashLine :: rows := by
  unfold mkSingleTable
  apply jsSplit_join
  · simp
  · intro l hl
    simp only [List.mem_cons] at hl
    rcases hl with rfl | rfl | hl
    · decide
    · decide
    · exact (goodRow_spec l (h l hl)).1

theorem extractTableSection_canonical (rows : List (List Char))
    (h : ∀ r ∈ rows, goodRow r = true) :
    extractTableSection (mkSingleTable rows) = some (mkSingleTable rows) := by
  simp only [extractTableSection, mkSingleTable_lines rows h, sectionScan_canonical rows h,
    Option.getD_none, List.drop_zero, Nat.sub_zero, List.take_length]
  rfl

theorem parseTableRows_canonical (rows : List (List Char))
    (h : ∀ r ∈ rows, goodRow r = true) :
    parseTableRows (mkSingleTable rows) = rows.filterMap (fun r => parseTableRow (jsTrim r)) := by
  unfold parseTableRows parseRowsLines
  rw [mkSingleTable_lines rows h]
  have hh : rowStep headerLine = none := by decide
  have hd : rowStep dashLine = none := by decide
  simp only [List.filterMap_cons, hh, hd]
  exact filterMap_congr_mem _ _ rows (fun r hr => rowStep_of_goodRow r (h r hr))

theorem headerCount_canonical (rows : List (List Char))
    (h : ∀ r ∈ rows, goodRow r = true) :
    headerCount (mkSingleTable rows) = 1 := by
  unfold headerCount
  rw [mkSingleTable_lines rows h]
  have hh : headerMatch headerLine = true := by decide
  have hd : headerMatch dashLine = false := by decide
  have hr : rows.filter headerMatch = [] :=
    List.filter_eq_nil_iff.mpr (fun r hr => by
      have := (goodRow_spec r (h r hr)).2.2.1
      simp [this])
  simp [List.filter_cons, hh, hd, hr]

theorem detectTableInMessage_canonical (rows : List (List Char))
    (h : ∀ r ∈ rows, goodRow r = true) :
    detectTableInMessage (mkSingleTable rows) = true := by
  have hdecomp : mkSingleTable rows = headerLine ++ '\n' :: jsJoin '\n' (dashLine :: rows) := rfl
  have hlift : ∀ n : List Char, containsSub n (lowerC headerLine) = true →
      containsSub n (lowerC (mkSingleTable rows)) = true := by
    intro n hn
    rw [hdecomp]
    unfold lowerC
    rw [List.map_append]
    exact containsSub_append_left n _ _ hn
  have h1 := hlift (lowerC (chars "Congress Member")) (by decide)
  have h2 := hlift (lowerC (chars "Chamber")) (by decide)
  have h3 := hlift (lowerC (chars "State/District")) (by decide)
  have h4 := hlift (lowerC (chars "Involvement Rank")) (by decide)
  have h5 := hlift (lowerC (chars "Reason")) (by decide)
  simp only [detectTableInMessage]
  apply decide_eq_true
  simp only [tableIndicators, List.filter_cons, h1, h2, h3, h4, h5, if_true]
  simp only [List.length_cons]
  omega

/-- C3, corrected. For every nonempty list of N data rows each of which is a
single pipe-delimited line with at least five nonempty cells and a parseable
rank AND free of the parser's own control markers — it does not contain
`congress member` case-insensitively (such a line is skipped as a header and
resets the extracted section), nor the section terminators `conclusion` /
`interpretive notes` (case-insensitive), nor `---`, and does not itself match
the separator-row or table-header patterns (`goodRow`) — the canonical text
consisting of the standard header, a separator row, and those N rows parses
with `hasDualTables = false`, `totalMembers = N` and `members` exactly those
N rows. Each restriction is forced by the code (see the counterexample):
over arbitrary texts a `party`-style header matches fewer than 3 table
indicators and parsing yields `null`; N = 0 yields `null`; a valid row whose
reason mentions `conclusion` truncates the section (`totalMembers = 1` for
N = 2); and a valid row whose name contains `Congress Member` makes the
whole parse return `null`. -/
theorem claim_C3 : ∀ rows : List (List Char), rows ≠ [] →
    (∀ r ∈ rows, goodRow r = true) →
    ∃ pt, parseOrchestratorTable (mkSingleTable rows) = some pt ∧
      pt.hasDualTables = some false ∧
      pt.totalMembers = rows.length ∧
      pt.members = rows.filterMap (fun r => parseTableRow (jsTrim r)) ∧
      pt.members.length = rows.length := by
  intro rows hne hgood
  have hlen : (rows.filterMap (fun r => parseTableRow (jsTrim r))).length = rows.length :=
    length_filterMap_all_isSome _ rows (fun r hr => (goodRow_spec r (hgood r hr)).2.2.2.2.2.2.2)
  have hnil : (rows.filterMap (fun r => parseTableRow (jsTrim r))).isEmpty = false := by
    cases hfm : rows.filterMap (fun r => parseTableRow (jsTrim r)) with
    | nil =>
      rw [hfm] at hlen
      cases rows with
      | nil => exact absurd rfl hne
      | cons a l => exact absurd hlen.symm (by simp)
    | cons a l => rfl
  have hdet : detectDualTables (mkSingleTable rows) = false := by
    simp [detectDualTables, headerCount_canonical rows hgood]
  refine ⟨{ members := rows.filterMap (fun r => parseTableRow (jsTrim r))
            totalMembers := (rows.filterMap (fun r => parseTableRow (jsTrim r))).length
            investigationComplete := isInvestigationComplete (mkSingleTable rows)
            billId := extractBillId (mkSingleTable rows)
            hasDualTables := some false
            alignedMembers := none
            opposedMembers := none }, ?_, rfl, hlen, rfl, hlen⟩
  simp only [parseOrchestratorTable, hdet, Bool.false_eq_true, if_false, parseSingleTable,
    detectTableInMessage_canonical rows hgood, Bool.not_true, if_false,
    extractTableSection_canonical rows hgood, parseTableRows_canonical rows hgood, hnil]

set_option maxRecDepth 10000 in
/-- C3 counterexample, refuting the claim over unrestricted syntactically
valid rows. (1) A text with exactly one well-formed header (the `party`
variant) and one valid data row parses to `none` instead of
`totalMembers = 1`: only two of the nine table indicators match, below the
threshold of three. (2) A valid row whose reason cell mentions `conclusion`
terminates the extracted section early: the canonical two-row table parses
with `totalMembers = 1`, not 2. (3) A valid row whose name cell contains
`Congress Member` resets the extracted section and is then skipped as a
header line: the canonical two-row table parses to `none`. -/
theorem claim_C3_counterexample :
    (headerCount partyHeaderTable.data = 1
      ∧ (parseTableRow (jsTrim partyHeaderRow.data)).isSome = true
      ∧ parseCongressTable partyHeaderTable = none)
    ∧ ((parseTableRow (jsTrim conclusionRow)).isSome = true
      ∧ (parseOrchestratorTable (mkSingleTable [canonicalRow, conclusionRow])).map
          (fun pt => pt.totalMembers) = some 1)
    ∧ ((parseTableRow (jsTrim memberNameRow)).isSome = true
      ∧ parseOrchestratorTable (mkSingleTable [canonicalRow, memberNameRow]) = none) :=
  ⟨⟨by decide, by decide, by decide⟩, ⟨by decide, by decide⟩, ⟨by decide, by decide⟩⟩

/-- Witness for C3 at a concrete one-row canonical table. -/
theorem claim_C3_witness :
    ∃ pt, parseOrchestratorTable (mkSingleTable [canonicalRow]) = some pt ∧
      pt.hasDualTables = some false ∧
      pt.totalMembers = [canonicalRow].length ∧
      pt.members = [canonicalRow].filterMap (fun r => parseTableRow (jsTrim r)) ∧
      pt.members.length = [canonicalRow].length :=
  claim_C3 [canonicalRow] (by simp) (by decide)
